import Mathlib

/-!
Verification of `xid-for-time` (src/main.go).

The program locates, in a table with a strictly increasing `id` key and a
`created_at` timestamp, the last row committed strictly before a target time,
via three SQL queries:

* `selectThresholds` — joins the Postgres histogram samples of the `id` column
  against the table, orders by `created_at desc`, takes the `lag(1)` pair, and
  keeps the latest sampled row with `created_at < target` together with its
  lag partner (the next-later sample).
* `selectPastThreshold` — first row (by `id asc`) with
  `min_id < id < max_id` and `created_at > target`.
* `selectBeforeThreshold` — row with the largest `id < exceeded_id`,
  projecting `id`, `created_at`, `xmin`.

We embed rows as `Row` over `Nat`-valued keys, timestamps and `xmin` markers
(the store's key and time domains are totally ordered; `Nat` is a faithful
shallow embedding of that order).  A table is a `List Row` whose list order is
the store's physical scan order: SQL `order by` with tied sort keys leaves the
relative order of peers unspecified, and we model the order the store happens
to use as the input list order, applying a stable sort for each `order by`.
`limit 1` with no matching row makes `pgx`'s `QueryRow ... Scan` fail
(`ErrNoRows`), and scanning a NULL `lag` value into a Go `string` also fails;
both are modelled as errors of the corresponding stage.
-/

/-- A table row: `id` key, `created_at` timestamp, `xmin` transaction marker. -/
structure Row where
  id : Nat
  createdAt : Nat
  xmin : Nat
deriving DecidableEq, Repr

/-- The scan target of the `selectThresholds` query
(`min_id, min_created_at, max_id, max_created_at`). -/
structure Thresholds where
  minID : Nat
  minCreatedAt : Nat
  maxID : Nat
  maxCreatedAt : Nat
deriving DecidableEq, Repr

/-- Failure modes of the three stage queries, as surfaced by
`pgx.QueryRow(...).Scan`: an empty result or a NULL scanned into a
non-nullable Go value.  The spec's taxonomy maps onto these as
`NoStatisticsAvailable`/`TargetOutOfRange` (below) ↦ `noThresholdRow`,
`TargetOutOfRange` (above) ↦ `nullMaxBound`,
`NoExceedingRecordInBracket` ↦ `noExceedingRow`,
`NoPriorRecord` ↦ `noPriorRow`. -/
inductive PipeError where
  | noThresholdRow
  | nullMaxBound
  | noExceedingRow
  | noPriorRow
deriving DecidableEq, Repr

/-- The scan target of the `selectBeforeThreshold` query
(`id, created_at, xmin::text`): the program's final answer. -/
structure BoundaryRecord where
  id : Nat
  createdAt : Nat
  xmin : Nat
deriving DecidableEq, Repr

/-- Everything a successful run produces (the three logged results). -/
structure RunOutput where
  thresholds : Thresholds
  exceeding : Row
  boundary : BoundaryRecord
deriving DecidableEq, Repr

/-- `order by f ... asc` comparison. -/
def keyAsc (f : α → Nat) (a b : α) : Prop := f a ≤ f b

/-- `order by f ... desc` comparison. -/
def keyDesc (f : α → Nat) (a b : α) : Prop := f b ≤ f a

instance (f : α → Nat) : DecidableRel (keyAsc f) := fun a b => Nat.decLe (f a) (f b)

instance (f : α → Nat) : DecidableRel (keyDesc f) := fun a b => Nat.decLe (f b) (f a)

instance (f : α → Nat) : IsTotal α (keyAsc f) := ⟨fun a b => Nat.le_total (f a) (f b)⟩

instance (f : α → Nat) : IsTotal α (keyDesc f) := ⟨fun a b => (Nat.le_total (f a) (f b)).symm⟩

instance (f : α → Nat) : IsTrans α (keyAsc f) := ⟨fun _ _ _ h1 h2 => Nat.le_trans h1 h2⟩

instance (f : α → Nat) : IsTrans α (keyDesc f) := ⟨fun _ _ _ h1 h2 => Nat.le_trans h2 h1⟩

instance (f : α → Nat) : IsRefl α (keyAsc f) := ⟨fun a => Nat.le_refl (f a)⟩

instance (f : α → Nat) : IsRefl α (keyDesc f) := ⟨fun a => Nat.le_refl (f a)⟩

/-- Stable sort ascending on the `Nat` field selected by `f`
(SQL `order by f asc`; tied peers keep the store's order). -/
def sortAscBy (f : α → Nat) (l : List α) : List α := List.insertionSort (keyAsc f) l

/-- Stable sort descending on the `Nat` field selected by `f`
(SQL `order by f desc`; tied peers keep the store's order). -/
def sortDescBy (f : α → Nat) (l : List α) : List α := List.insertionSort (keyDesc f) l

/-- The inner subquery of `selectThresholds`:
`where id in (select unnest(histogram_bounds ...) from pg_stats ...)`.
`samples` is the store-provided list of sampled `id` values. -/
def sampleRows (rows : List Row) (samples : List Nat) : List Row :=
  rows.filter (fun r => decide (r.id ∈ samples))

/-- The `lag(·, 1) over (order by created_at desc)` window: pairs each row of
the descending list with its predecessor in that order (NULL for the first). -/
def lagPairs (prev : Option Row) : List Row → List (Row × Option Row)
  | [] => []
  | r :: rest => (r, prev) :: lagPairs (some r) rest

/-- The `selectThresholds` query + scan of src/main.go: sampled rows ordered by
`created_at desc`, lag pairs, filtered to `min_created_at < $1`, ordered by
`min_created_at desc`, `limit 1`; scanning NULL `max_id`/`max_created_at`
into non-nullable Go fields fails. -/
def selectThresholds (rows : List Row) (samples : List Nat) (target : Nat) :
    Except PipeError Thresholds :=
  let t1 := sortDescBy Row.createdAt (sampleRows rows samples)
  let t2 := lagPairs none t1
  let hits := sortDescBy (fun p => p.1.createdAt)
    (t2.filter (fun p => decide (p.1.createdAt < target)))
  match hits.head? with
  | none => .error .noThresholdRow
  | some (_, none) => .error .nullMaxBound
  | some (mn, some mx) => .ok ⟨mn.id, mn.createdAt, mx.id, mx.createdAt⟩

/-- The `selectPastThreshold` query + scan:
`where id > $1 and id < $2 and created_at > $3 order by id asc limit 1`. -/
def selectPastThreshold (rows : List Row) (minID maxID target : Nat) :
    Except PipeError Row :=
  let hits := sortAscBy Row.id (rows.filter (fun r =>
    decide (minID < r.id) && decide (r.id < maxID) && decide (target < r.createdAt)))
  match hits.head? with
  | none => .error .noExceedingRow
  | some r => .ok r

/-- The `selectBeforeThreshold` query + scan:
`where id < $1 order by id desc limit 1`, projecting `id, created_at, xmin`. -/
def selectBeforeThreshold (rows : List Row) (exceededID : Nat) :
    Except PipeError BoundaryRecord :=
  let hits := sortDescBy Row.id (rows.filter (fun r => decide (r.id < exceededID)))
  match hits.head? with
  | none => .error .noPriorRow
  | some r => .ok ⟨r.id, r.createdAt, r.xmin⟩

/-- The three-stage pipeline of `main`: each stage's `Scan` failure is fatal
(`kingpin.Fatalf`), so the first error short-circuits the run. -/
def run (rows : List Row) (samples : List Nat) (target : Nat) :
    Except PipeError RunOutput :=
  match selectThresholds rows samples target with
  | .error e => .error e
  | .ok th =>
    match selectPastThreshold rows th.minID th.maxID target with
    | .error e => .error e
    | .ok ex =>
      match selectBeforeThreshold rows ex.id with
      | .error e => .error e
      | .ok b => .ok ⟨th, ex, b⟩

/-- Failure modes of `main` beyond the stage queries: `pgx.Connect` failing,
or the target-time string failing the store-side
`select '<time>'::timestamp` validation query. -/
inductive MainError where
  | connectFailed
  | invalidTimestamp
  | pipe (e : PipeError)
deriving DecidableEq, Repr

/-- The externally observable store interactions of `main`, in program order.
`releaseConn` would be an explicit connection release (`conn.Close`); the
source contains no such call on any path (every failure exits via
`kingpin.Fatalf`, i.e. `os.Exit`, and the success path simply returns). -/
inductive Event where
  | connect
  | parseTime
  | queryThresholds
  | queryPastThreshold
  | queryBeforeThreshold
  | releaseConn
deriving DecidableEq, Repr

/-- `main` of src/main.go with its store interactions made explicit:
connect, validate the timestamp via the store's parser (`parsed` is the
parser's verdict on the caller-supplied string), then the three stage
queries, each fatal on error.  Returns the result together with the ordered
trace of store interactions that were issued. -/
def mainRun (connectOk : Bool) (parsed : Option Nat) (rows : List Row)
    (samples : List Nat) : Except MainError RunOutput × List Event :=
  if connectOk then
    match parsed with
    | none => (.error .invalidTimestamp, [.connect, .parseTime])
    | some target =>
      match selectThresholds rows samples target with
      | .error e => (.error (.pipe e), [.connect, .parseTime, .queryThresholds])
      | .ok th =>
        match selectPastThreshold rows th.minID th.maxID target with
        | .error e =>
          (.error (.pipe e),
           [.connect, .parseTime, .queryThresholds, .queryPastThreshold])
        | .ok ex =>
          match selectBeforeThreshold rows ex.id with
          | .error e =>
            (.error (.pipe e),
             [.connect, .parseTime, .queryThresholds, .queryPastThreshold,
              .queryBeforeThreshold])
          | .ok b =>
            (.ok ⟨th, ex, b⟩,
             [.connect, .parseTime, .queryThresholds, .queryPastThreshold,
              .queryBeforeThreshold])
  else (.error .connectFailed, [.connect])

/-- Whether an `Except` result is a success. -/
def Except.succeeded : Except ε α → Bool
  | .ok _ => true
  | .error _ => false

/-- The stage queries a run that failed with `e` has issued, per the linear
control flow of `main`. -/
def stageTrace : PipeError → List Event
  | .noThresholdRow => [.queryThresholds]
  | .nullMaxBound => [.queryThresholds]
  | .noExceedingRow => [.queryThresholds, .queryPastThreshold]
  | .noPriorRow => [.queryThresholds, .queryPastThreshold, .queryBeforeThreshold]

/-- Modelled from the spec: §4.1's edge-case policy words, "if two samples tie
on creation time, ordering is by key descending as a deterministic tiebreak
(stable secondary sort)".  Comparison `created_at desc, id desc`. -/
def timeKeyDesc (a b : Row) : Prop :=
  b.createdAt < a.createdAt ∨ (b.createdAt = a.createdAt ∧ b.id ≤ a.id)

instance : DecidableRel timeKeyDesc := fun _a _b =>
  inferInstanceAs (Decidable (_ ∨ _))

instance : IsTotal Row timeKeyDesc := by
  refine ⟨fun a b => ?_⟩
  rcases Nat.lt_trichotomy a.createdAt b.createdAt with h | h | h
  · exact Or.inr (Or.inl h)
  · rcases Nat.le_total b.id a.id with h2 | h2
    · exact Or.inl (Or.inr ⟨h.symm, h2⟩)
    · exact Or.inr (Or.inr ⟨h, h2⟩)
  · exact Or.inl (Or.inl h)

instance : IsTrans Row timeKeyDesc := by
  refine ⟨fun a b c h1 h2 => ?_⟩
  rcases h1 with h1 | ⟨h1e, h1k⟩ <;> rcases h2 with h2 | ⟨h2e, h2k⟩
  · exact Or.inl (Nat.lt_trans h2 h1)
  · exact Or.inl (lt_of_eq_of_lt h2e h1)
  · exact Or.inl (lt_of_lt_of_eq h2 h1e)
  · exact Or.inr ⟨h2e.trans h1e, Nat.le_trans h2k h1k⟩

/-- `timeKeyDesc` lifted to the lag pairs through the leading row. -/
def pairTimeKeyDesc (a b : Row × Option Row) : Prop := timeKeyDesc a.1 b.1

instance : DecidableRel pairTimeKeyDesc := fun a b =>
  inferInstanceAs (Decidable (timeKeyDesc a.1 b.1))

/-- Modelled from the spec: the Bracketer as §4.1 describes it, identical to
`selectThresholds` except that every ordering uses the key-descending
secondary sort of the edge-case policy. -/
def selectThresholdsSpecTiebreak (rows : List Row) (samples : List Nat)
    (target : Nat) : Except PipeError Thresholds :=
  let t1 := List.insertionSort timeKeyDesc (sampleRows rows samples)
  let t2 := lagPairs none t1
  let hits := List.insertionSort pairTimeKeyDesc
    (t2.filter (fun p => decide (p.1.createdAt < target)))
  match hits.head? with
  | none => .error .noThresholdRow
  | some (_, none) => .error .nullMaxBound
  | some (mn, some mx) => .ok ⟨mn.id, mn.createdAt, mx.id, mx.createdAt⟩

/-- Strictly-later comparison on creation time, used to see that sorting is
unambiguous once sampled creation times are distinct. -/
def timeGT (a b : Row) : Prop := b.createdAt < a.createdAt

instance : IsAntisymm Row timeGT := ⟨fun _ _ h1 h2 => absurd h1 (Nat.lt_asymm h2)⟩

/-- The head delivered by `head?` is a member of the list. -/
theorem mem_of_head? {l : List α} {a : α} (h : l.head? = some a) : a ∈ l := by
  cases l with
  | nil => cases h
  | cons b t =>
    have hb : b = a := by simpa using h
    exact hb ▸ List.mem_cons_self b t

/-- In a sorted list, the head (if any) is related to every member. -/
theorem sorted_rel_of_head? {r : α → α → Prop} [IsRefl α r] {l : List α} {a : α}
    (hs : List.Sorted r l) (h : l.head? = some a) : ∀ x ∈ l, r a x := by
  cases l with
  | nil => intro x hx; cases hx
  | cons b t =>
    have hb : b = a := by simpa using h
    subst hb
    intro x hx
    rcases List.mem_cons.mp hx with rfl | hx
    · exact refl_of r x
    · exact List.rel_of_sorted_cons hs x hx

/-- The leading component of a lag pair is a member of the ordered list. -/
theorem lagPairs_fst_mem :
    ∀ (p : Option Row) (l : List Row) (q : Row × Option Row),
      q ∈ lagPairs p l → q.1 ∈ l := by
  intro p l
  induction l generalizing p with
  | nil => intro q hq; cases hq
  | cons r rest ih =>
    intro q hq
    rcases List.mem_cons.mp hq with rfl | hq
    · exact List.mem_cons_self _ _
    · exact List.mem_cons_of_mem _ (ih (some r) q hq)

/-- Projecting the lag pairs back onto their leading rows gives the list. -/
theorem lagPairs_map_fst :
    ∀ (p : Option Row) (l : List Row), (lagPairs p l).map Prod.fst = l := by
  intro p l
  induction l generalizing p with
  | nil => rfl
  | cons r rest ih => simp [lagPairs, ih]

/-- Combining two pairwise facts on the same list. -/
theorem pairwise_combine {R S : α → α → Prop} :
    ∀ {l : List α}, List.Pairwise R l → List.Pairwise S l →
      List.Pairwise (fun a b => R a b ∧ S a b) l := by
  intro l hR hS
  induction l with
  | nil => exact List.Pairwise.nil
  | cons a t ih =>
    rcases hR with _ | ⟨haR, hR⟩
    rcases hS with _ | ⟨haS, hS⟩
    exact List.Pairwise.cons (fun b hb => ⟨haR b hb, haS b hb⟩) (ih hR hS)

/-- Weakening a pairwise fact using membership. -/
theorem pairwise_imp_mem {R S : α → α → Prop} :
    ∀ {l : List α}, (∀ a ∈ l, ∀ b ∈ l, R a b → S a b) →
      List.Pairwise R l → List.Pairwise S l := by
  intro l h hR
  induction l with
  | nil => exact List.Pairwise.nil
  | cons a t ih =>
    rcases hR with _ | ⟨haR, hR⟩
    refine List.Pairwise.cons (fun b hb => ?_) ?_
    · exact h a (List.mem_cons_self _ _) b (List.mem_cons_of_mem _ hb) (haR b hb)
    · exact ih (fun x hx y hy => h x (List.mem_cons_of_mem _ hx) y (List.mem_cons_of_mem _ hy)) hR

/-- What a successful Bracketer scan guarantees about its `min` side: it is a
sampled table row with creation time below the target. -/
theorem thresholds_ok {rows : List Row} {samples : List Nat} {target : Nat}
    {th : Thresholds} (h : selectThresholds rows samples target = .ok th) :
    ∃ m ∈ rows, m.id = th.minID ∧ m.createdAt = th.minCreatedAt ∧
      m.createdAt < target := by
  simp only [selectThresholds] at h
  split at h
  · exact absurd h (by simp)
  · exact absurd h (by simp)
  next mn mx heq =>
    simp only [Except.ok.injEq] at h
    subst h
    have hmem := mem_of_head? heq
    rw [sortDescBy, List.mem_insertionSort] at hmem
    have hmf := List.mem_filter.mp hmem
    have hlt : mn.createdAt < target := by
      have := hmf.2
      simpa using this
    have hmn : mn ∈ sortDescBy Row.createdAt (sampleRows rows samples) :=
      lagPairs_fst_mem none _ (mn, some mx) hmf.1
    rw [sortDescBy, List.mem_insertionSort] at hmn
    have hrows := (List.mem_filter.mp hmn).1
    exact ⟨mn, hrows, rfl, rfl, hlt⟩

/-- What a successful ForwardProbe scan guarantees: a table row strictly
inside the bracket, strictly past the target, with the least key among all
such rows. -/
theorem pastThreshold_ok {rows : List Row} {lo hi target : Nat} {ex : Row}
    (h : selectPastThreshold rows lo hi target = .ok ex) :
    ex ∈ rows ∧ lo < ex.id ∧ ex.id < hi ∧ target < ex.createdAt ∧
      ∀ r ∈ rows, lo < r.id → r.id < hi → target < r.createdAt →
        ex.id ≤ r.id := by
  simp only [selectPastThreshold] at h
  split at h
  · exact absurd h (by simp)
  next r heq =>
    simp only [Except.ok.injEq] at h
    subst h
    have hmem := mem_of_head? heq
    rw [sortAscBy, List.mem_insertionSort] at hmem
    have hmf := List.mem_filter.mp hmem
    have hpred := hmf.2
    simp only [Bool.and_eq_true, decide_eq_true_eq] at hpred
    obtain ⟨⟨h1, h2⟩, h3⟩ := hpred
    refine ⟨hmf.1, h1, h2, h3, ?_⟩
    intro r' hr' hlo hhi ht
    have hr'f : r' ∈ rows.filter (fun q =>
        decide (lo < q.id) && decide (q.id < hi) && decide (target < q.createdAt)) :=
      List.mem_filter.mpr ⟨hr', by simp [hlo, hhi, ht]⟩
    have hr's : r' ∈ List.insertionSort (keyAsc Row.id) (rows.filter (fun q =>
        decide (lo < q.id) && decide (q.id < hi) && decide (target < q.createdAt))) := by
      rw [List.mem_insertionSort]
      exact hr'f
    have hsorted : List.Sorted (keyAsc Row.id) (sortAscBy Row.id (rows.filter (fun q =>
        decide (lo < q.id) && decide (q.id < hi) && decide (target < q.createdAt)))) := by
      rw [sortAscBy]
      exact List.sorted_insertionSort _ _
    exact sorted_rel_of_head? hsorted heq r' (by rw [sortAscBy]; exact hr's)

/-- What a successful BoundaryResolver scan guarantees: the projected row is a
table row whose key is the largest strictly below the exceeding key. -/
theorem beforeThreshold_ok {rows : List Row} {k : Nat} {b : BoundaryRecord}
    (h : selectBeforeThreshold rows k = .ok b) :
    ∃ rb ∈ rows, rb.id < k ∧ b = ⟨rb.id, rb.createdAt, rb.xmin⟩ ∧
      ∀ r ∈ rows, r.id < k → r.id ≤ rb.id := by
  simp only [selectBeforeThreshold] at h
  split at h
  · exact absurd h (by simp)
  next r heq =>
    simp only [Except.ok.injEq] at h
    have hmem := mem_of_head? heq
    rw [sortDescBy, List.mem_insertionSort] at hmem
    have hmf := List.mem_filter.mp hmem
    have hlt : r.id < k := by
      have := hmf.2
      simpa using this
    refine ⟨r, hmf.1, hlt, h.symm, ?_⟩
    intro r' hr' hr'k
    have hr'f : r' ∈ rows.filter (fun q => decide (q.id < k)) :=
      List.mem_filter.mpr ⟨hr', by simp [hr'k]⟩
    have hsorted : List.Sorted (keyDesc Row.id)
        (sortDescBy Row.id (rows.filter (fun q => decide (q.id < k)))) := by
      rw [sortDescBy]
      exact List.sorted_insertionSort _ _
    exact sorted_rel_of_head? hsorted heq r'
      (by rw [sortDescBy, List.mem_insertionSort]; exact hr'f)

/-- A successful run is exactly three successful stage scans, each feeding
the next. -/
theorem run_ok_elim {rows : List Row} {samples : List Nat} {target : Nat}
    {out : RunOutput} (h : run rows samples target = .ok out) :
    selectThresholds rows samples target = .ok out.thresholds ∧
      selectPastThreshold rows out.thresholds.minID out.thresholds.maxID target
        = .ok out.exceeding ∧
      selectBeforeThreshold rows out.exceeding.id = .ok out.boundary := by
  unfold run at h
  split at h
  · exact absurd h (by simp)
  next th hth =>
    split at h
    · exact absurd h (by simp)
    next ex hex =>
      split at h
      · exact absurd h (by simp)
      next b hb =>
        simp only [Except.ok.injEq] at h
        subst h
        exact ⟨hth, hex, hb⟩

/-- The heart of the algorithm, under the table shape the spec assumes
(distinct keys, creation times non-decreasing with key): a successful run
returns the key-predecessor of the exceeding record; its creation time is
the maximum creation time at most the target, its key-successor is the
exceeding record, and the exceeding record's creation time is strictly past
the target. -/
theorem run_ok_bounds {rows : List Row} {samples : List Nat} {target : Nat}
    {out : RunOutput}
    (hids : ∀ a ∈ rows, ∀ b ∈ rows, a.id = b.id → a = b)
    (hmono : ∀ a ∈ rows, ∀ b ∈ rows, a.id < b.id → a.createdAt ≤ b.createdAt)
    (h : run rows samples target = .ok out) :
    ∃ rb ∈ rows, ∃ ex ∈ rows,
      out.boundary = ⟨rb.id, rb.createdAt, rb.xmin⟩ ∧ out.exceeding = ex ∧
      rb.createdAt ≤ target ∧
      (∀ r ∈ rows, r.createdAt ≤ target → r.createdAt ≤ rb.createdAt) ∧
      rb.id < ex.id ∧ (∀ r ∈ rows, rb.id < r.id → ex.id ≤ r.id) ∧
      target < ex.createdAt := by
  obtain ⟨hth, hex, hb⟩ := run_ok_elim h
  obtain ⟨m, hm, hmid, _, hmlt⟩ := thresholds_ok hth
  obtain ⟨hexm, hexlo, hexhi, hext, hexmin⟩ := pastThreshold_ok hex
  obtain ⟨rb, hrb, hrbk, hbeq, hrbmax⟩ := beforeThreshold_ok hb
  have hlt : ∀ r ∈ rows, r.id < out.exceeding.id → r.createdAt ≤ target := by
    intro r hr hrid
    rcases Nat.lt_trichotomy r.id m.id with hc | hc | hc
    · exact Nat.le_of_lt (Nat.lt_of_le_of_lt (hmono r hr m hm hc) hmlt)
    · rw [hids r hr m hm hc]
      exact Nat.le_of_lt hmlt
    · by_contra hcon
      push_neg at hcon
      have h5 : out.exceeding.id ≤ r.id :=
        hexmin r hr (hmid ▸ hc) (Nat.lt_trans hrid hexhi) hcon
      exact absurd hrid (Nat.not_lt.mpr h5)
  have hrbt : rb.createdAt ≤ target := hlt rb hrb hrbk
  have hmax : ∀ r ∈ rows, r.createdAt ≤ target → r.createdAt ≤ rb.createdAt := by
    intro r hr hrt
    have hrid : r.id < out.exceeding.id := by
      rcases Nat.lt_trichotomy r.id out.exceeding.id with hc | hc | hc
      · exact hc
      · exfalso
        rw [hids r hr _ hexm hc] at hrt
        exact absurd hext (Nat.not_lt.mpr hrt)
      · exfalso
        have hle : out.exceeding.createdAt ≤ r.createdAt := hmono _ hexm r hr hc
        exact absurd (Nat.lt_of_lt_of_le hext hle) (Nat.not_lt.mpr hrt)
    have hidle : r.id ≤ rb.id := hrbmax r hr hrid
    rcases Nat.lt_or_ge r.id rb.id with hc | hc
    · exact hmono r hr rb hrb hc
    · rw [hids r hr rb hrb (Nat.le_antisymm hidle hc)]
  have hsucc : ∀ r ∈ rows, rb.id < r.id → out.exceeding.id ≤ r.id := by
    intro r hr hgt
    rcases Nat.lt_trichotomy r.id out.exceeding.id with hc | hc | hc
    · exact absurd hgt (Nat.not_lt.mpr (hrbmax r hr hc))
    · exact Nat.le_of_eq hc.symm
    · exact Nat.le_of_lt hc
  exact ⟨rb, hrb, out.exceeding, hexm, hbeq, rfl, hrbt, hmax, hrbk, hsucc, hext⟩

/-- The Bracketer query can only fail for lack of a qualifying row or a NULL
lag partner. -/
theorem selectThresholds_error_cases {rows : List Row} {samples : List Nat}
    {target : Nat} {e : PipeError}
    (h : selectThresholds rows samples target = .error e) :
    e = .noThresholdRow ∨ e = .nullMaxBound := by
  simp only [selectThresholds] at h
  split at h
  · simp only [Except.error.injEq] at h
    exact Or.inl h.symm
  · simp only [Except.error.injEq] at h
    exact Or.inr h.symm
  · exact absurd h (by simp)

/-- The ForwardProbe query can only fail for lack of a qualifying row. -/
theorem selectPastThreshold_error_cases {rows : List Row} {lo hi target : Nat}
    {e : PipeError} (h : selectPastThreshold rows lo hi target = .error e) :
    e = .noExceedingRow := by
  simp only [selectPastThreshold] at h
  split at h
  · simp only [Except.error.injEq] at h
    exact h.symm
  · exact absurd h (by simp)

/-- The BoundaryResolver query can only fail for lack of a prior row. -/
theorem selectBeforeThreshold_error_cases {rows : List Row} {k : Nat}
    {e : PipeError} (h : selectBeforeThreshold rows k = .error e) :
    e = .noPriorRow := by
  simp only [selectBeforeThreshold] at h
  split at h
  · simp only [Except.error.injEq] at h
    exact h.symm
  · exact absurd h (by simp)

/-- If no sampled row's creation time is below the target, the Bracketer scan
finds no row. -/
theorem selectThresholds_noRow {rows : List Row} {samples : List Nat}
    {target : Nat} (h : ∀ r ∈ sampleRows rows samples, target ≤ r.createdAt) :
    selectThresholds rows samples target = .error .noThresholdRow := by
  have hfil : (lagPairs none (sortDescBy Row.createdAt (sampleRows rows samples))).filter
      (fun p => decide (p.1.createdAt < target)) = [] := by
    rw [List.filter_eq_nil_iff]
    intro p hp
    have hp1 : p.1 ∈ sortDescBy Row.createdAt (sampleRows rows samples) :=
      lagPairs_fst_mem none _ p hp
    rw [sortDescBy, List.mem_insertionSort] at hp1
    simp [Nat.not_lt.mpr (h p.1 hp1)]
  simp only [selectThresholds]
  rw [hfil]
  rfl

/-- If there are sampled rows and every one of them has creation time below
the target, the Bracketer picks the latest sample, whose lag partner is NULL. -/
theorem selectThresholds_nullMax {rows : List Row} {samples : List Nat}
    {target : Nat} (hne : sampleRows rows samples ≠ [])
    (h : ∀ r ∈ sampleRows rows samples, r.createdAt < target) :
    selectThresholds rows samples target = .error .nullMaxBound := by
  obtain ⟨h0, rest, ht1⟩ : ∃ h0 rest,
      sortDescBy Row.createdAt (sampleRows rows samples) = h0 :: rest := by
    cases hcase : sortDescBy Row.createdAt (sampleRows rows samples) with
    | nil =>
      exfalso
      apply hne
      have hlen : (sortDescBy Row.createdAt (sampleRows rows samples)).length =
          (sampleRows rows samples).length := by
        rw [sortDescBy]
        exact (List.perm_insertionSort _ _).length_eq
      rw [hcase] at hlen
      exact List.length_eq_zero.mp hlen.symm
    | cons a l => exact ⟨a, l, rfl⟩
  have hsorted : List.Sorted (keyDesc Row.createdAt) (h0 :: rest) := by
    rw [← ht1, sortDescBy]
    exact List.sorted_insertionSort _ _
  have hall : ∀ p ∈ lagPairs none (h0 :: rest),
      (fun p : Row × Option Row => decide (p.1.createdAt < target)) p = true := by
    intro p hp
    have hp1 : p.1 ∈ h0 :: rest := lagPairs_fst_mem none _ p hp
    rw [← ht1, sortDescBy, List.mem_insertionSort] at hp1
    simp [h p.1 hp1]
  have hfil : (lagPairs none (h0 :: rest)).filter
      (fun p => decide (p.1.createdAt < target)) = lagPairs none (h0 :: rest) :=
    List.filter_eq_self.mpr hall
  have hpw := List.pairwise_map.mp
    (show List.Pairwise (keyDesc Row.createdAt)
        ((lagPairs none (h0 :: rest)).map Prod.fst) by
      rw [lagPairs_map_fst]
      exact hsorted)
  have hsd : List.Sorted (keyDesc (fun p : Row × Option Row => p.1.createdAt))
      (lagPairs none (h0 :: rest)) := List.Pairwise.imp (fun hx => hx) hpw
  have hsortid : sortDescBy (fun p : Row × Option Row => p.1.createdAt)
      (lagPairs none (h0 :: rest)) = lagPairs none (h0 :: rest) := by
    rw [sortDescBy]
    exact List.Sorted.insertionSort_eq hsd
  simp only [selectThresholds]
  rw [ht1, hfil, hsortid]
  rfl

/-- If no row strictly inside the bracket lies strictly past the target, the
ForwardProbe scan finds no row. -/
theorem selectPastThreshold_noRow {rows : List Row} {lo hi target : Nat}
    (h : ∀ r ∈ rows, lo < r.id → r.id < hi → r.createdAt ≤ target) :
    selectPastThreshold rows lo hi target = .error .noExceedingRow := by
  have hfil : rows.filter (fun r =>
      decide (lo < r.id) && decide (r.id < hi) && decide (target < r.createdAt)) = [] := by
    rw [List.filter_eq_nil_iff]
    intro r hr
    simp only [Bool.and_eq_true, decide_eq_true_eq]
    rintro ⟨⟨h1, h2⟩, h3⟩
    exact absurd h3 (Nat.not_lt.mpr (h r hr h1 h2))
  simp only [selectPastThreshold]
  rw [hfil]
  rfl

/-- As long as the sampled creation times are distinct, the Bracketer's
result does not depend on the store's physical row order: the
`created_at desc` sort is unambiguous without any key tiebreak. -/
theorem selectThresholds_perm_eq {l₁ l₂ : List Row} {samples : List Nat}
    {target : Nat} (hperm : l₁.Perm l₂) (hnd : l₁.Nodup)
    (hinj : ∀ a ∈ sampleRows l₁ samples, ∀ b ∈ sampleRows l₁ samples,
      a.createdAt = b.createdAt → a = b) :
    selectThresholds l₁ samples target = selectThresholds l₂ samples target := by
  have hf : (sampleRows l₁ samples).Perm (sampleRows l₂ samples) := hperm.filter _
  have hnd1 : (sampleRows l₁ samples).Nodup := hnd.filter _
  have hnd2 : (sampleRows l₂ samples).Nodup := hf.nodup hnd1
  have hp1 : (sortDescBy Row.createdAt (sampleRows l₁ samples)).Perm
      (sampleRows l₁ samples) := by
    rw [sortDescBy]
    exact List.perm_insertionSort _ _
  have hp2 : (sortDescBy Row.createdAt (sampleRows l₂ samples)).Perm
      (sampleRows l₂ samples) := by
    rw [sortDescBy]
    exact List.perm_insertionSort _ _
  have hps : (sortDescBy Row.createdAt (sampleRows l₁ samples)).Perm
      (sortDescBy Row.createdAt (sampleRows l₂ samples)) :=
    hp1.trans (hf.trans hp2.symm)
  have hs1 : List.Sorted (keyDesc Row.createdAt)
      (sortDescBy Row.createdAt (sampleRows l₁ samples)) := by
    rw [sortDescBy]
    exact List.sorted_insertionSort _ _
  have hs2 : List.Sorted (keyDesc Row.createdAt)
      (sortDescBy Row.createdAt (sampleRows l₂ samples)) := by
    rw [sortDescBy]
    exact List.sorted_insertionSort _ _
  have hn1 : (sortDescBy Row.createdAt (sampleRows l₁ samples)).Nodup :=
    hp1.symm.nodup hnd1
  have hn2 : (sortDescBy Row.createdAt (sampleRows l₂ samples)).Nodup :=
    hp2.symm.nodup hnd2
  have hstrict1 : List.Pairwise timeGT
      (sortDescBy Row.createdAt (sampleRows l₁ samples)) := by
    refine pairwise_imp_mem ?_ (pairwise_combine hs1 hn1)
    intro a ha b hb hab
    obtain ⟨hle, hne⟩ := hab
    rcases Nat.lt_or_ge b.createdAt a.createdAt with hlt | hge
    · exact hlt
    · exact absurd (hinj a (hp1.subset ha) b (hp1.subset hb)
        (Nat.le_antisymm hge hle)) hne
  have hstrict2 : List.Pairwise timeGT
      (sortDescBy Row.createdAt (sampleRows l₂ samples)) := by
    refine pairwise_imp_mem ?_ (pairwise_combine hs2 hn2)
    intro a ha b hb hab
    obtain ⟨hle, hne⟩ := hab
    rcases Nat.lt_or_ge b.createdAt a.createdAt with hlt | hge
    · exact hlt
    · exact absurd (hinj a (hf.symm.subset (hp2.subset ha))
        b (hf.symm.subset (hp2.subset hb)) (Nat.le_antisymm hge hle)) hne
  have heq12 : sortDescBy Row.createdAt (sampleRows l₁ samples) =
      sortDescBy Row.createdAt (sampleRows l₂ samples) :=
    List.eq_of_perm_of_sorted hps hstrict1 hstrict2
  simp only [selectThresholds]
  rw [heq12]

/-- Claim C7 (confirmed): every error at any stage is fatal and immediately
aborts the run — after a failure the trace stops at the failing stage's query
(no later stage query is issued), no stage query appears twice (no retry), and
the run produces no output. -/
theorem c7_errors_fatal_linear (connectOk : Bool) (parsed : Option Nat)
    (rows : List Row) (samples : List Nat) (e : PipeError)
    (h : (mainRun connectOk parsed rows samples).1 = .error (.pipe e)) :
    (mainRun connectOk parsed rows samples).2 =
      [.connect, .parseTime] ++ stageTrace e ∧
    ((mainRun connectOk parsed rows samples).2).Nodup ∧
    ((mainRun connectOk parsed rows samples).1).succeeded = false := by
  cases connectOk with
  | false => simp [mainRun] at h
  | true =>
    cases parsed with
    | none => simp [mainRun] at h
    | some target =>
      cases h1 : selectThresholds rows samples target with
      | error e1 =>
        have hmr : mainRun true (some target) rows samples =
            (.error (.pipe e1), [.connect, .parseTime, .queryThresholds]) := by
          simp [mainRun, h1]
        rw [hmr] at h
        have h2 : MainError.pipe e1 = MainError.pipe e := by simpa using h
        injection h2 with h3
        subst h3
        rcases selectThresholds_error_cases h1 with rfl | rfl <;>
          exact ⟨by rw [hmr]; rfl, by rw [hmr]; decide, by rw [hmr]; rfl⟩
      | ok th =>
        cases h2 : selectPastThreshold rows th.minID th.maxID target with
        | error e2 =>
          have hmr : mainRun true (some target) rows samples =
              (.error (.pipe e2),
               [.connect, .parseTime, .queryThresholds, .queryPastThreshold]) := by
            simp [mainRun, h1, h2]
          rw [hmr] at h
          have h2' : MainError.pipe e2 = MainError.pipe e := by simpa using h
          injection h2' with h3
          subst h3
          obtain rfl := selectPastThreshold_error_cases h2
          exact ⟨by rw [hmr]; rfl, by rw [hmr]; decide, by rw [hmr]; rfl⟩
        | ok ex =>
          cases h3 : selectBeforeThreshold rows ex.id with
          | error e3 =>
            have hmr : mainRun true (some target) rows samples =
                (.error (.pipe e3),
                 [.connect, .parseTime, .queryThresholds, .queryPastThreshold,
                  .queryBeforeThreshold]) := by
              simp [mainRun, h1, h2, h3]
            rw [hmr] at h
            have h3' : MainError.pipe e3 = MainError.pipe e := by simpa using h
            injection h3' with h4
            subst h4
            obtain rfl := selectBeforeThreshold_error_cases h3
            exact ⟨by rw [hmr]; rfl, by rw [hmr]; decide, by rw [hmr]; rfl⟩
          | ok b =>
            have hmr : mainRun true (some target) rows samples =
                (.ok ⟨th, ex, b⟩,
                 [.connect, .parseTime, .queryThresholds, .queryPastThreshold,
                  .queryBeforeThreshold]) := by
              simp [mainRun, h1, h2, h3]
            rw [hmr] at h
            exact absurd h (by simp)

/-- Claim C9 (amended, proved): the program never issues an explicit
connection release on any exit path; `main` has no `conn.Close`, and every
error path exits the process directly. -/
theorem c9_conn_never_released (connectOk : Bool) (parsed : Option Nat)
    (rows : List Row) (samples : List Nat) :
    Event.releaseConn ∉ (mainRun connectOk parsed rows samples).2 := by
  cases connectOk with
  | false => simp [mainRun]
  | true =>
    cases parsed with
    | none => simp [mainRun]
    | some target =>
      cases h1 : selectThresholds rows samples target with
      | error e1 => simp [mainRun, h1]
      | ok th =>
        cases h2 : selectPastThreshold rows th.minID th.maxID target with
        | error e2 => simp [mainRun, h1, h2]
        | ok ex =>
          cases h3 : selectBeforeThreshold rows ex.id with
          | error e3 => simp [mainRun, h1, h2, h3]
          | ok b => simp [mainRun, h1, h2, h3]

/-- Claim C10 (confirmed): if the store-side timestamp validation fails, the
run aborts with only the connect and parse interactions issued — no stage
query is ever reached without a successfully validated timestamp. -/
theorem c10_parse_gate (connectOk : Bool) (rows : List Row)
    (samples : List Nat) (parsed : Option Nat) (h : parsed = none) :
    ((mainRun connectOk parsed rows samples).1).succeeded = false ∧
    ((mainRun connectOk parsed rows samples).2 = [.connect] ∨
      (mainRun connectOk parsed rows samples).2 = [.connect, .parseTime]) := by
  subst h
  cases connectOk with
  | false => exact ⟨rfl, Or.inl rfl⟩
  | true => exact ⟨rfl, Or.inr rfl⟩

/-- Claim C10 witness: with a failing timestamp parse the run aborts before
any stage query. -/
theorem c10_parse_gate_witness :
    ((mainRun true none [] []).1).succeeded = false ∧
    ((mainRun true none [] []).2 = [.connect] ∨
      (mainRun true none [] []).2 = [.connect, .parseTime]) :=
  c10_parse_gate true [] [] none rfl

/-- Claim C4 (confirmed): if the target precedes every sampled creation time,
exceeds every sampled creation time, or precedes every row's creation time,
the Bracketer fails (empty scan, or NULL lag partner for the latest sample)
and the run never returns a record. -/
theorem c4_target_out_of_range (rows : List Row) (samples : List Nat)
    (target : Nat)
    (h : (∀ r ∈ sampleRows rows samples, target ≤ r.createdAt) ∨
      (sampleRows rows samples ≠ [] ∧
        ∀ r ∈ sampleRows rows samples, r.createdAt < target) ∨
      (∀ r ∈ rows, target ≤ r.createdAt)) :
    (selectThresholds rows samples target = .error .noThresholdRow ∨
      selectThresholds rows samples target = .error .nullMaxBound) ∧
    (run rows samples target).succeeded = false := by
  have hsel : selectThresholds rows samples target = .error .noThresholdRow ∨
      selectThresholds rows samples target = .error .nullMaxBound := by
    rcases h with h | ⟨hne, h⟩ | h
    · exact Or.inl (selectThresholds_noRow h)
    · exact Or.inr (selectThresholds_nullMax hne h)
    · refine Or.inl (selectThresholds_noRow ?_)
      intro r hr
      simp only [sampleRows] at hr
      exact h r (List.mem_filter.mp hr).1
  refine ⟨hsel, ?_⟩
  rcases hsel with hsel | hsel <;> simp [run, hsel, Except.succeeded]

/-- Claim C4 witness: a target before every row. -/
theorem c4_target_out_of_range_witness :
    (selectThresholds [⟨1, 10, 1⟩, ⟨2, 20, 2⟩] [1, 2] 5 = .error .noThresholdRow ∨
      selectThresholds [⟨1, 10, 1⟩, ⟨2, 20, 2⟩] [1, 2] 5 = .error .nullMaxBound) ∧
    (run [⟨1, 10, 1⟩, ⟨2, 20, 2⟩] [1, 2] 5).succeeded = false :=
  c4_target_out_of_range [⟨1, 10, 1⟩, ⟨2, 20, 2⟩] [1, 2] 5 (Or.inl (by decide))

/-- Claim C5 (confirmed): if no row strictly inside the bracket has creation
time strictly past the target, the ForwardProbe fails with its no-row error,
the failure is surfaced to the caller unchanged, and the probe query is
issued exactly once (never retried). -/
theorem c5_probe_failure_is_fatal (rows : List Row) (samples : List Nat)
    (target : Nat) (th : Thresholds)
    (hth : selectThresholds rows samples target = .ok th)
    (hnone : ∀ r ∈ rows, th.minID < r.id → r.id < th.maxID →
      r.createdAt ≤ target) :
    selectPastThreshold rows th.minID th.maxID target = .error .noExceedingRow ∧
    run rows samples target = .error .noExceedingRow ∧
    (mainRun true (some target) rows samples).1 = .error (.pipe .noExceedingRow) ∧
    ((mainRun true (some target) rows samples).2).count .queryPastThreshold = 1 := by
  have hpast := selectPastThreshold_noRow hnone
  have hmr : mainRun true (some target) rows samples =
      (.error (.pipe .noExceedingRow),
       [.connect, .parseTime, .queryThresholds, .queryPastThreshold]) := by
    simp [mainRun, hth, hpast]
  refine ⟨hpast, ?_, ?_, ?_⟩
  · simp [run, hth, hpast]
  · rw [hmr]
  · rw [hmr]
    decide

/-- Claim C5 witness: the spec's own degenerate scenario, where the bracket
(2,20)-(3,30) leaves no key strictly between its bounds. -/
theorem c5_probe_failure_is_fatal_witness :
    selectPastThreshold [⟨1, 10, 1⟩, ⟨2, 20, 2⟩, ⟨3, 30, 3⟩, ⟨4, 40, 4⟩] 2 3 25
      = .error .noExceedingRow ∧
    run [⟨1, 10, 1⟩, ⟨2, 20, 2⟩, ⟨3, 30, 3⟩, ⟨4, 40, 4⟩] [1, 2, 3, 4] 25
      = .error .noExceedingRow ∧
    (mainRun true (some 25) [⟨1, 10, 1⟩, ⟨2, 20, 2⟩, ⟨3, 30, 3⟩, ⟨4, 40, 4⟩]
      [1, 2, 3, 4]).1 = .error (.pipe .noExceedingRow) ∧
    ((mainRun true (some 25) [⟨1, 10, 1⟩, ⟨2, 20, 2⟩, ⟨3, 30, 3⟩, ⟨4, 40, 4⟩]
      [1, 2, 3, 4]).2).count .queryPastThreshold = 1 :=
  c5_probe_failure_is_fatal [⟨1, 10, 1⟩, ⟨2, 20, 2⟩, ⟨3, 30, 3⟩, ⟨4, 40, 4⟩]
    [1, 2, 3, 4] 25 ⟨2, 20, 3, 30⟩ rfl (by decide)

/-- Claim C8 (confirmed): two runs against identical store contents with the
same table and target yield the same boundary record — same key, creation
time and transaction-visibility marker. -/
theorem c8_idempotent (rows : List Row) (samples : List Nat) (target : Nat)
    (o₁ o₂ : RunOutput) (h₁ : run rows samples target = .ok o₁)
    (h₂ : run rows samples target = .ok o₂) :
    o₁.boundary.id = o₂.boundary.id ∧
    o₁.boundary.createdAt = o₂.boundary.createdAt ∧
    o₁.boundary.xmin = o₂.boundary.xmin := by
  rw [h₁] at h₂
  injection h₂ with h'
  rw [h']
  exact ⟨rfl, rfl, rfl⟩

/-- Claim C8 witness: a concrete successful run compared with itself. -/
theorem c8_idempotent_witness :
    (⟨⟨1, 10, 4, 40⟩, ⟨3, 30, 33⟩, ⟨2, 20, 32⟩⟩ : RunOutput).boundary.id =
      (⟨⟨1, 10, 4, 40⟩, ⟨3, 30, 33⟩, ⟨2, 20, 32⟩⟩ : RunOutput).boundary.id ∧
    (⟨⟨1, 10, 4, 40⟩, ⟨3, 30, 33⟩, ⟨2, 20, 32⟩⟩ : RunOutput).boundary.createdAt =
      (⟨⟨1, 10, 4, 40⟩, ⟨3, 30, 33⟩, ⟨2, 20, 32⟩⟩ : RunOutput).boundary.createdAt ∧
    (⟨⟨1, 10, 4, 40⟩, ⟨3, 30, 33⟩, ⟨2, 20, 32⟩⟩ : RunOutput).boundary.xmin =
      (⟨⟨1, 10, 4, 40⟩, ⟨3, 30, 33⟩, ⟨2, 20, 32⟩⟩ : RunOutput).boundary.xmin :=
  c8_idempotent [⟨1, 10, 31⟩, ⟨2, 20, 32⟩, ⟨3, 30, 33⟩, ⟨4, 40, 34⟩] [1, 4] 25
    ⟨⟨1, 10, 4, 40⟩, ⟨3, 30, 33⟩, ⟨2, 20, 32⟩⟩
    ⟨⟨1, 10, 4, 40⟩, ⟨3, 30, 33⟩, ⟨2, 20, 32⟩⟩ rfl rfl

/-- Table for the Claim C1 counterexample: keys strictly increasing, creation
times strictly increasing, one row's creation time equal to the target 25. -/
def c1Rows : List Row := [⟨1, 10, 101⟩, ⟨2, 25, 102⟩, ⟨3, 26, 103⟩, ⟨4, 40, 104⟩]

/-- Table for the Claim C1 witness. -/
def c1WitnessRows : List Row :=
  [⟨1, 10, 101⟩, ⟨2, 20, 102⟩, ⟨3, 30, 103⟩, ⟨4, 40, 104⟩]

/-- Claim C1 counterexample: on a strictly key-ordered table with
non-decreasing creation times the pipeline succeeds and returns the record
`(id 2, created_at 25)` whose creation time is not less than the target 25 —
the returned creation time is not "the maximum creation time still less than
the target". -/
theorem c1_counterexample :
    List.Pairwise (fun a b : Row => a.id < b.id) c1Rows ∧
    (∀ a ∈ c1Rows, ∀ b ∈ c1Rows, a.id < b.id → a.createdAt ≤ b.createdAt) ∧
    run c1Rows [1, 4] 25 =
      .ok ⟨⟨1, 10, 4, 40⟩, ⟨3, 26, 103⟩, ⟨2, 25, 102⟩⟩ ∧
    ¬ (⟨⟨1, 10, 4, 40⟩, ⟨3, 26, 103⟩, ⟨2, 25, 102⟩⟩ :
        RunOutput).boundary.createdAt < 25 :=
  ⟨by decide, by decide, rfl, by decide⟩

/-- Claim C1 (amended, proved): for a table with distinct keys and creation
times non-decreasing with key, a successful run returns the boundary record
whose creation time is the maximum creation time at most the target (equality
with the target is possible), and whose key-successor — the exceeding
record — has creation time strictly greater than the target. -/
theorem c1_boundary_is_max_le_target (rows : List Row) (samples : List Nat)
    (target : Nat) (out : RunOutput)
    (hids : ∀ a ∈ rows, ∀ b ∈ rows, a.id = b.id → a = b)
    (hmono : ∀ a ∈ rows, ∀ b ∈ rows, a.id < b.id → a.createdAt ≤ b.createdAt)
    (h : run rows samples target = .ok out) :
    ∃ rb ∈ rows, ∃ ex ∈ rows,
      out.boundary = ⟨rb.id, rb.createdAt, rb.xmin⟩ ∧ out.exceeding = ex ∧
      rb.createdAt ≤ target ∧
      (∀ r ∈ rows, r.createdAt ≤ target → r.createdAt ≤ rb.createdAt) ∧
      rb.id < ex.id ∧ (∀ r ∈ rows, rb.id < r.id → ex.id ≤ r.id) ∧
      target < ex.createdAt :=
  run_ok_bounds hids hmono h

/-- Claim C1 witness: a successful concrete run satisfying the amended
statement. -/
theorem c1_boundary_is_max_le_target_witness :
    ∃ rb ∈ c1WitnessRows, ∃ ex ∈ c1WitnessRows,
      (⟨⟨1, 10, 4, 40⟩, ⟨3, 30, 103⟩, ⟨2, 20, 102⟩⟩ : RunOutput).boundary =
        ⟨rb.id, rb.createdAt, rb.xmin⟩ ∧
      (⟨⟨1, 10, 4, 40⟩, ⟨3, 30, 103⟩, ⟨2, 20, 102⟩⟩ : RunOutput).exceeding = ex ∧
      rb.createdAt ≤ 25 ∧
      (∀ r ∈ c1WitnessRows, r.createdAt ≤ 25 → r.createdAt ≤ rb.createdAt) ∧
      rb.id < ex.id ∧ (∀ r ∈ c1WitnessRows, rb.id < r.id → ex.id ≤ r.id) ∧
      25 < ex.createdAt :=
  c1_boundary_is_max_le_target c1WitnessRows [1, 4] 25
    ⟨⟨1, 10, 4, 40⟩, ⟨3, 30, 103⟩, ⟨2, 20, 102⟩⟩ (by decide) (by decide) rfl

/-- The spec's §8 scenario table: rows (1,10), (2,20), (3,30), (4,40) with
every key sampled. -/
def c2Rows : List Row := [⟨1, 10, 101⟩, ⟨2, 20, 102⟩, ⟨3, 30, 103⟩, ⟨4, 40, 104⟩]

/-- Claim C2 counterexample: on the spec's scenario the Bracketer indeed
returns the bracket (2,20)-(3,30), but the ForwardProbe — which requires
`min_id < id < max_id` with both bounds strict — finds no key strictly
between 2 and 3 and fails instead of returning id 3. -/
theorem c2_counterexample :
    selectThresholds c2Rows [1, 2, 3, 4] 25 = .ok ⟨2, 20, 3, 30⟩ ∧
    selectPastThreshold c2Rows 2 3 25 = .error .noExceedingRow :=
  ⟨rfl, rfl⟩

/-- Claim C2 (amended, proved): on the scenario table the run aborts at the
ForwardProbe with its no-row failure; no answer is produced. -/
theorem c2_scenario_aborts :
    run c2Rows [1, 2, 3, 4] 25 = .error .noExceedingRow := rfl

/-- Table for the Claim C3 counterexample. -/
def c3Rows : List Row := [⟨1, 10, 11⟩, ⟨2, 25, 12⟩, ⟨3, 26, 13⟩, ⟨4, 40, 14⟩]

/-- Table for the Claim C3 witness. -/
def c3WitnessRows : List Row := [⟨1, 10, 11⟩, ⟨2, 20, 12⟩, ⟨3, 30, 13⟩, ⟨4, 40, 14⟩]

/-- Claim C3 counterexample: the target 25 equals row 2's creation time, the
run succeeds, and the returned boundary record is exactly that row — a row
whose creation time equals the target is returned as the answer, because the
resolver query has no creation-time filter at all. -/
theorem c3_counterexample :
    (⟨2, 25, 12⟩ : Row) ∈ c3Rows ∧
    run c3Rows [1, 4] 25 = .ok ⟨⟨1, 10, 4, 40⟩, ⟨3, 26, 13⟩, ⟨2, 25, 12⟩⟩ ∧
    (⟨⟨1, 10, 4, 40⟩, ⟨3, 26, 13⟩, ⟨2, 25, 12⟩⟩ :
      RunOutput).boundary.createdAt = 25 :=
  ⟨by decide, rfl, rfl⟩

/-- Claim C3 (amended, proved): each stage's own comparison is strict, but
the resolver applies no creation-time filter, so the guarantee is only that
the returned boundary record's creation time is at most the target (equality
with the target is possible), for tables with distinct keys and creation
times non-decreasing with key. -/
theorem c3_boundary_le_target (rows : List Row) (samples : List Nat)
    (target : Nat) (out : RunOutput)
    (hids : ∀ a ∈ rows, ∀ b ∈ rows, a.id = b.id → a = b)
    (hmono : ∀ a ∈ rows, ∀ b ∈ rows, a.id < b.id → a.createdAt ≤ b.createdAt)
    (h : run rows samples target = .ok out) :
    out.boundary.createdAt ≤ target := by
  obtain ⟨rb, _, ex, _, hbeq, _, hrbt, _⟩ := run_ok_bounds hids hmono h
  rw [hbeq]
  exact hrbt

/-- Claim C3 witness: a successful concrete run whose boundary creation time
is below the target. -/
theorem c3_boundary_le_target_witness :
    (⟨⟨1, 10, 4, 40⟩, ⟨3, 30, 13⟩, ⟨2, 20, 12⟩⟩ :
      RunOutput).boundary.createdAt ≤ 25 :=
  c3_boundary_le_target c3WitnessRows [1, 4] 25
    ⟨⟨1, 10, 4, 40⟩, ⟨3, 30, 13⟩, ⟨2, 20, 12⟩⟩ (by decide) (by decide) rfl

/-- Two physical orders of the same three-row table whose samples tie on
creation time 20. -/
def c6RowsA : List Row := [⟨1, 20, 201⟩, ⟨2, 20, 202⟩, ⟨3, 30, 203⟩]

/-- The same table contents as `c6RowsA` with the tied rows swapped. -/
def c6RowsB : List Row := [⟨2, 20, 202⟩, ⟨1, 20, 201⟩, ⟨3, 30, 203⟩]

/-- Tables for the Claim C6 witness: distinct creation times. -/
def c6WitnessRowsA : List Row := [⟨1, 10, 201⟩, ⟨2, 20, 202⟩, ⟨3, 30, 203⟩]

/-- The same contents as `c6WitnessRowsA`, permuted. -/
def c6WitnessRowsB : List Row := [⟨2, 20, 202⟩, ⟨1, 10, 201⟩, ⟨3, 30, 203⟩]

/-- Claim C6 counterexample: the Bracketer query orders by `created_at desc`
with no key tiebreak, so on the same table contents with two samples tied at
creation time 20 the selected bracket depends on the store's row order
(min id 1 versus min id 2), and differs from what the claimed key-descending
secondary sort would produce. -/
theorem c6_counterexample :
    (c6RowsA : Multiset Row) = (c6RowsB : Multiset Row) ∧
    selectThresholds c6RowsA [1, 2, 3] 25 = .ok ⟨1, 20, 3, 30⟩ ∧
    selectThresholds c6RowsB [1, 2, 3] 25 = .ok ⟨2, 20, 3, 30⟩ ∧
    selectThresholdsSpecTiebreak c6RowsA [1, 2, 3] 25 = .ok ⟨2, 20, 3, 30⟩ ∧
    (⟨1, 20, 3, 30⟩ : Thresholds) ≠ ⟨2, 20, 3, 30⟩ :=
  ⟨by decide, rfl, rfl, rfl, by decide⟩

/-- Claim C6 (amended, proved): the Bracketer applies no key tiebreak; its
result is independent of the store's physical row order exactly when it does
not need one, i.e. when the sampled creation times are distinct (for a
duplicate-free table). -/
theorem c6_deterministic_distinct_times (l₁ l₂ : List Row)
    (samples : List Nat) (target : Nat) (hperm : l₁.Perm l₂) (hnd : l₁.Nodup)
    (hinj : ∀ a ∈ sampleRows l₁ samples, ∀ b ∈ sampleRows l₁ samples,
      a.createdAt = b.createdAt → a = b) :
    selectThresholds l₁ samples target = selectThresholds l₂ samples target :=
  selectThresholds_perm_eq hperm hnd hinj

/-- Claim C6 witness: with distinct creation times the two physical orders
give the same bracket. -/
theorem c6_deterministic_distinct_times_witness :
    selectThresholds c6WitnessRowsA [1, 2, 3] 25 =
      selectThresholds c6WitnessRowsB [1, 2, 3] 25 :=
  c6_deterministic_distinct_times c6WitnessRowsA c6WitnessRowsB [1, 2, 3] 25
    (by simp only [c6WitnessRowsA, c6WitnessRowsB]; exact List.Perm.swap _ _ _)
    (by decide) (by decide)

/-- Claim C7 witness: a concrete run that fails at the ForwardProbe; the
trace stops there, has no duplicates, and the run yields no output. -/
theorem c7_errors_fatal_linear_witness :
    (mainRun true (some 25) [⟨1, 10, 21⟩, ⟨2, 20, 22⟩, ⟨3, 30, 23⟩, ⟨4, 40, 24⟩]
      [1, 2, 3, 4]).2 = [.connect, .parseTime] ++ stageTrace .noExceedingRow ∧
    ((mainRun true (some 25) [⟨1, 10, 21⟩, ⟨2, 20, 22⟩, ⟨3, 30, 23⟩, ⟨4, 40, 24⟩]
      [1, 2, 3, 4]).2).Nodup ∧
    ((mainRun true (some 25) [⟨1, 10, 21⟩, ⟨2, 20, 22⟩, ⟨3, 30, 23⟩, ⟨4, 40, 24⟩]
      [1, 2, 3, 4]).1).succeeded = false :=
  c7_errors_fatal_linear true (some 25)
    [⟨1, 10, 21⟩, ⟨2, 20, 22⟩, ⟨3, 30, 23⟩, ⟨4, 40, 24⟩] [1, 2, 3, 4]
    .noExceedingRow rfl

/-- Table for the Claim C9 counterexample. -/
def c9Rows : List Row := [⟨1, 10, 41⟩, ⟨2, 20, 42⟩, ⟨3, 30, 43⟩, ⟨4, 40, 44⟩]

/-- Claim C9 counterexample: a normally completing run — an exit path — whose
interaction trace contains no connection release: the source never closes the
store connection. -/
theorem c9_counterexample :
    ((mainRun true (some 25) c9Rows [1, 4]).1).succeeded = true ∧
    Event.releaseConn ∉ (mainRun true (some 25) c9Rows [1, 4]).2 :=
  ⟨rfl, by decide⟩
